import Mathlib

/-!
# ChatInterface: session state and upload handlers

A shallow embedding of `src/ChatInterface.jsx`.  The six `useState` slots of the
component form the session state; the two kinds of asynchronous work the component
starts (the `setTimeout` reply of `handleSend` and the `FileReader` read of
`handleFileUpload`) are kept as explicit lists of pending callbacks, each with the
value its closure captured.  Every handler runs against the state of the latest
render, and the state updates a callback makes in one synchronous block are applied
together.
-/

namespace ChatInterface

/-! ## Data model -/

/-- One entry of the `messages` array: `{ text, isUser }`. -/
structure Message where
  text : String
  isUser : Bool
  deriving DecidableEq

/-- The fields of a browser `File` the component reads: `file.name` and `file.type`. -/
structure File where
  name : String
  type : String
  deriving DecidableEq

/-- The component state (`useState` slots) together with the pending callbacks.
`timers` holds, for every `setTimeout` not yet fired, the `input` its closure
captured; `reads` holds, for every `FileReader` still reading or parsing, the `file`
its closures captured. -/
structure Session where
  messages : List Message
  input : String
  isSending : Bool
  isUploading : Bool
  uploadProgress : Nat
  uploadedPDFText : String
  timers : List String
  reads : List File
  deriving DecidableEq

/-- The state of the first render: `useState([])`, `useState('')`, `useState(false)`,
`useState(false)`, `useState(0)`, `useState('')`, nothing pending. -/
def initial : Session :=
  { messages := [], input := "", isSending := false, isUploading := false,
    uploadProgress := 0, uploadedPDFText := "", timers := [], reads := [] }

/-! ## `String.prototype.trim` -/

/-- The code points `trim` strips: ECMAScript WhiteSpace and LineTerminator. -/
def isWhiteSpace (c : Char) : Bool :=
  let n := c.toNat
  n == 0x09 || n == 0x0A || n == 0x0B || n == 0x0C || n == 0x0D || n == 0x20 ||
  n == 0xA0 || n == 0x1680 || (0x2000 ≤ n && n ≤ 0x200A) || n == 0x2028 ||
  n == 0x2029 || n == 0x202F || n == 0x205F || n == 0x3000 || n == 0xFEFF

/-- Strip white space from the front of a character list. -/
def trimStart : List Char → List Char
  | [] => []
  | c :: cs => if isWhiteSpace c then trimStart cs else c :: cs

/-- The method `trim`: white space removed from both ends. -/
def trim (s : String) : String :=
  String.mk (trimStart (trimStart s.data).reverse).reverse

/-! ## Sending -/

/-- The text of the simulated reply, built from the captured `input`. -/
def replyText (input : String) : String :=
  "You said: \"" ++ input ++ "\""

/-- Function `handleSend` (lines 23-44).  The guard returns early on a blank draft or
while a send is in flight; otherwise the user message is appended, the draft cleared,
`isSending` raised and the reply timer started with the current `input`.  The `catch`
branch is unreachable, since `setTimeout` does not throw. -/
def handleSend (s : Session) : Session :=
  if trim s.input == "" || s.isSending then s
  else
    { s with
      messages := s.messages ++ [{ text := s.input, isUser := true }]
      input := ""
      isSending := true
      timers := s.timers ++ [s.input] }

/-- The `setTimeout` callback of `handleSend` (lines 35-38), closed over `input`. -/
def replyCallback (s : Session) (input : String) : Session :=
  { s with
    messages := s.messages ++ [{ text := replyText input, isUser := false }]
    isSending := false }

/-- The oldest pending timer fires. -/
def fireTimer (s : Session) : Session :=
  match s.timers with
  | [] => s
  | input :: rest => replyCallback { s with timers := rest } input

/-! ## Uploading -/

/-- One element of `content.items`; only `item.str` is read. -/
structure TextItem where
  str : String
  deriving DecidableEq

/-- The result of `page.getTextContent()`. -/
structure TextContent where
  items : List TextItem

/-- A page proxy: `getTextContent()` resolves to a value or rejects (`none`). -/
structure PdfPage where
  getTextContent : Option TextContent

/-- A loaded document: `numPages`, and `getPage(n)` resolving or rejecting (`none`). -/
structure PdfDocument where
  numPages : Nat
  getPage : Nat → Option PdfPage

/-- How a read ends: `reader.onerror` fires, or `reader.onload` fires and
`pdfjsLib.getDocument(...).promise` rejects (`none`) or resolves to a document. -/
inductive ReadOutcome where
  | error
  | load (pdf : Option PdfDocument)

/-- The expression `content.items.map(item => item.str).join(' ')` of line 81. -/
def pageText (content : TextContent) : String :=
  " ".intercalate (content.items.map (fun item => item.str))

/-- The `for` loop of lines 78-83 with `remaining` iterations left, the next one for
page `pageNum`, and `textContent` the text gathered so far.  A rejected `await` leaves
the loop with `none` (control passes to `catch`). -/
def extractLoop (pdf : PdfDocument) : (remaining : Nat) → (pageNum : Nat) →
    (textContent : String) → Option String
  | 0, _, textContent => some textContent
  | remaining + 1, pageNum, textContent =>
    match pdf.getPage pageNum with
    | none => none
    | some page =>
      match page.getTextContent with
      | none => none
      | some content =>
        extractLoop pdf remaining (pageNum + 1) (textContent ++ (pageText content ++ "\n"))

/-- The `try` block of `reader.onload` up to line 83: the value of `textContent` when
the loop has run through pages `1..numPages`, or `none` when an `await` rejected. -/
def extractText (pdf : Option PdfDocument) : Option String :=
  match pdf with
  | none => none
  | some pdf => extractLoop pdf pdf.numPages 1 ""

/-- The message of line 86, naming the file. -/
def successMessage (file : File) : Message :=
  { text := "Successfully uploaded and processed " ++ file.name ++
      ". You can now ask questions related to the document."
    isUser := false }

/-- The message of line 89. -/
def processFailedMessage : Message :=
  { text := "Failed to process the PDF. Please try another file.", isUser := false }

/-- The message of line 98. -/
def readFailedMessage : Message :=
  { text := "Failed to read the file. Please try again.", isUser := false }

/-- The message of line 53. -/
def invalidTypeMessage : Message :=
  { text := "Only PDF files are allowed.", isUser := false }

/-- Function `handleFileUpload` up to the start of the read (lines 47-60 and 103);
`file` is `event.target.files[0]`, `none` when no file was chosen. -/
def handleFileUpload (s : Session) (file : Option File) : Session :=
  match file with
  | none => s
  | some file =>
    if file.type != "application/pdf" then
      { s with messages := s.messages ++ [invalidTypeMessage] }
    else
      { s with isUploading := true, uploadProgress := 0, reads := s.reads ++ [file] }

/-- The handler `reader.onprogress` (lines 62-67); `progress` is the value of
`Math.round((e.loaded / e.total) * 100)`. -/
def onprogress (s : Session) (lengthComputable : Bool) (progress : Nat) : Session :=
  if lengthComputable then { s with uploadProgress := progress } else s

/-- The handler `reader.onload` (lines 69-94): `try` stores the text and appends the
success message, `catch` appends the failure message, `finally` resets the upload. -/
def onload (s : Session) (file : File) (pdf : Option PdfDocument) : Session :=
  let s1 : Session :=
    match extractText pdf with
    | some textContent =>
      { s with
        uploadedPDFText := textContent
        messages := s.messages ++ [successMessage file] }
    | none => { s with messages := s.messages ++ [processFailedMessage] }
  { s1 with isUploading := false, uploadProgress := 0 }

/-- The handler `reader.onerror` (lines 96-101). -/
def onerror (s : Session) : Session :=
  { s with
    messages := s.messages ++ [readFailedMessage]
    isUploading := false
    uploadProgress := 0 }

/-- The handler the reader of `file` runs when its read ends with `outcome`. -/
def settle (s : Session) (file : File) : ReadOutcome → Session
  | ReadOutcome.error => onerror s
  | ReadOutcome.load pdf => onload s file pdf

/-- The pending read at position `i` ends with `outcome`: its reader leaves the
pending list and its handler runs with the `file` it captured. -/
def completeRead (s : Session) (i : Nat) (outcome : ReadOutcome) : Session :=
  match s.reads.get? i with
  | none => s
  | some file => settle { s with reads := s.reads.eraseIdx i } file outcome

/-- Page `j` of `pdf` cannot be extracted: `getPage(j)` or `getTextContent()` rejects. -/
def PageFails (pdf : PdfDocument) (j : Nat) : Prop :=
  pdf.getPage j = none ∨ ∃ page, pdf.getPage j = some page ∧ page.getTextContent = none

/-- The read ends in a failure: the reader reports an error, the document does not
load, or one of the pages `1..numPages` cannot be extracted. -/
def ReadOutcome.Fails : ReadOutcome → Prop
  | ReadOutcome.error => True
  | ReadOutcome.load none => True
  | ReadOutcome.load (some pdf) => ∃ j, 1 ≤ j ∧ j ≤ pdf.numPages ∧ PageFails pdf j

/-- A run of `progress` events of one reader, in order. -/
def progressAll (s : Session) (events : List (Bool × Nat)) : Session :=
  events.foldl (fun acc e => onprogress acc e.1 e.2) s

/-! ## The controls of the rendered page -/

/-- The `disabled` of the send button (line 204); `!uploadedPDFText` holds exactly for
the empty string. -/
def sendDisabled (s : Session) : Bool :=
  s.isSending || s.isUploading || s.uploadedPDFText == ""

/-- The `disabled` of the text input (line 200). -/
def inputDisabled (s : Session) : Bool :=
  s.isSending || s.isUploading

/-- The `disabled` of the upload button (line 163). -/
def uploadDisabled (s : Session) : Bool :=
  s.isUploading

/-- A click on the send button: `onClick={handleSend}` unless disabled. -/
def clickSend (s : Session) : Session :=
  if sendDisabled s then s else handleSend s

/-- The Enter key in the text input: `e.key === 'Enter' && handleSend()` (line 197);
a disabled input receives no key events. -/
def pressEnter (s : Session) : Session :=
  if inputDisabled s then s else handleSend s

/-- Typing in the text input: `onChange={(e) => setInput(e.target.value)}`. -/
def changeInput (s : Session) (value : String) : Session :=
  if inputDisabled s then s else { s with input := value }

/-- A click on the upload button followed by the choice made in the file dialog:
`triggerFileInput` opens the dialog, the hidden input's `onChange` runs
`handleFileUpload`. -/
def clickUpload (s : Session) (file : Option File) : Session :=
  if uploadDisabled s then s else handleFileUpload s file

/-- What can happen to a rendered session. -/
inductive Event where
  | changeInput (value : String)
  | pressEnter
  | clickSend
  | clickUpload (file : Option File)
  | timerFires
  | readProgress (lengthComputable : Bool) (progress : Nat)
  | readEnds (i : Nat) (outcome : ReadOutcome)

/-- One event applied to the session. -/
def step (s : Session) : Event → Session
  | Event.changeInput value => changeInput s value
  | Event.pressEnter => pressEnter s
  | Event.clickSend => clickSend s
  | Event.clickUpload file => clickUpload s file
  | Event.timerFires => fireTimer s
  | Event.readProgress lengthComputable progress =>
    if s.reads = [] then s else onprogress s lengthComputable progress
  | Event.readEnds i outcome => completeRead s i outcome

/-- A sequence of events applied in order. -/
def run (s : Session) (events : List Event) : Session :=
  events.foldl step s

/-! ## Concrete sessions and documents used as examples -/

/-- A document is loaded and the draft `" hi "` has white space at both ends. -/
def paddedDraftSession : Session :=
  { initial with input := " hi ", uploadedPDFText := "report\n" }

/-- No document is loaded and the draft is `"hi"`. -/
def noDocumentSession : Session :=
  { initial with input := "hi" }

/-- A reply to `"first"` is pending and the next draft is already typed. -/
def sendingSession : Session :=
  { initial with
    messages := [{ text := "first", isUser := true }]
    input := "second"
    isSending := true
    uploadedPDFText := "report\n"
    timers := ["first"] }

/-- A file that is not a PDF. -/
def notesTxt : File :=
  { name := "notes.txt", type := "text/plain" }

/-- A PDF file. -/
def reportPdf : File :=
  { name := "report.pdf", type := "application/pdf" }

/-- A one-page document whose page has the text items `Hello` and `world`. -/
def onePagePdf : PdfDocument :=
  { numPages := 1
    getPage := fun j =>
      if j = 1 then some { getTextContent := some { items := [⟨"Hello"⟩, ⟨"world"⟩] } }
      else none }

/-- A two-page document whose first page has text and whose second page rejects. -/
def brokenPdf : PdfDocument :=
  { numPages := 2
    getPage := fun j =>
      if j = 1 then some { getTextContent := some { items := [⟨"Hello"⟩] } }
      else if j = 2 then some { getTextContent := none }
      else none }

/-- A session that already holds the text of an earlier document. -/
def loadedSession : Session :=
  { initial with
    messages := [{ text := "Successfully uploaded and processed old.pdf. " ++
      "You can now ask questions related to the document.", isUser := false }]
    uploadedPDFText := "old text\n" }

/-- A second PDF file. -/
def invoicePdf : File :=
  { name := "invoice.pdf", type := "application/pdf" }

/-- The read of `report.pdf` is under way at 40 percent. -/
def uploadingSession : Session :=
  { loadedSession with isUploading := true, uploadProgress := 40, reads := [reportPdf] }

/-- With a document loaded, a message is sent and, before its reply arrives, a file
that is not a PDF is chosen with the upload button. -/
def sendThenReject : List Event :=
  [Event.clickUpload (some reportPdf),
   Event.readEnds 0 (ReadOutcome.load (some onePagePdf)),
   Event.changeInput "hi",
   Event.clickSend,
   Event.clickUpload (some notesTxt)]

/-- Sends are serialized: either nothing is in flight and no reply timer is pending,
or exactly one reply timer is pending, for a draft `d` whose user message is in the
log with only assistant messages after it. -/
def SendInvariant (s : Session) : Prop :=
  (s.isSending = false ∧ s.timers = []) ∨
    (s.isSending = true ∧ ∃ d pre post, s.timers = [d] ∧
      s.messages = pre ++ [{ text := d, isUser := true }] ++ post ∧
      ∀ m ∈ post, m.isUser = false)

/-! ## Sending: theorems -/

/-- C5: when a send is in flight (`isSending` is true) or the draft is empty after
trimming, `handleSend` changes nothing: the message log, the draft and `isSending`
stay as they are and no reply timer is started. -/
theorem handleSend_noop_when_sending_or_blank (s : Session)
    (h : s.isSending = true ∨ trim s.input = "") : handleSend s = s := by
  unfold handleSend
  rcases h with h | h
  · simp [h]
  · simp [h]

/-- C5 at a session with a reply pending and a non-blank draft. -/
theorem handleSend_noop_when_sending_or_blank_witness :
    (sendingSession.isSending = true ∨ trim sendingSession.input = "") ∧
      handleSend sendingSession = sendingSession :=
  ⟨Or.inl rfl, handleSend_noop_when_sending_or_blank sendingSession (Or.inl rfl)⟩

/-- C4, as stated, fails: with a document loaded and nothing in flight, sending the
draft `" hi "` appends the user message `" hi "`, not the trimmed `"hi"`. -/
theorem handleSend_appends_untrimmed_draft :
    trim paddedDraftSession.input = "hi" ∧
      paddedDraftSession.isSending = false ∧
      sendDisabled paddedDraftSession = false ∧
      (handleSend paddedDraftSession).messages = [{ text := " hi ", isUser := true }] ∧
      (handleSend paddedDraftSession).messages ≠
        paddedDraftSession.messages ++
          [{ text := trim paddedDraftSession.input, isUser := true }] := by
  decide

/-- C4, amended: when the guard of `handleSend` passes (the draft is not empty after
trimming and no send is in flight), `handleSend` appends exactly one user message whose
text is the draft as typed, clears the draft, sets `isSending` and starts one reply
timer for that draft; the earlier messages and the rest of the state are unchanged. -/
theorem handleSend_appends_draft (s : Session)
    (hDraft : trim s.input ≠ "") (hIdle : s.isSending = false) :
    (handleSend s).messages = s.messages ++ [{ text := s.input, isUser := true }] ∧
      (handleSend s).input = "" ∧
      (handleSend s).isSending = true ∧
      (handleSend s).timers = s.timers ++ [s.input] ∧
      (handleSend s).isUploading = s.isUploading ∧
      (handleSend s).uploadProgress = s.uploadProgress ∧
      (handleSend s).uploadedPDFText = s.uploadedPDFText ∧
      (handleSend s).reads = s.reads := by
  unfold handleSend
  simp [hDraft, hIdle]

/-- C4, amended, at the session with the draft `" hi "`. -/
theorem handleSend_appends_draft_witness :
    (handleSend paddedDraftSession).messages =
        paddedDraftSession.messages ++ [{ text := " hi ", isUser := true }] ∧
      (handleSend paddedDraftSession).input = "" ∧
      (handleSend paddedDraftSession).isSending = true :=
  have h := handleSend_appends_draft paddedDraftSession (by decide) (by decide)
  ⟨h.1, h.2.1, h.2.2.1⟩

/-- C2: with no document loaded and the draft `"hi"`, the send button does nothing,
but the Enter key in the input runs `handleSend`: the user message is appended, the
draft cleared, `isSending` set and a reply timer started. -/
theorem pressEnter_sends_without_document :
    noDocumentSession.uploadedPDFText = "" ∧
      clickSend noDocumentSession = noDocumentSession ∧
      pressEnter noDocumentSession =
        { initial with
          messages := [{ text := "hi", isUser := true }]
          input := ""
          isSending := true
          timers := ["hi"] } := by
  decide

/-! ## Uploading: theorems -/

/-- C1: for a file whose declared type is not `application/pdf`, `handleFileUpload`
appends exactly one assistant message and changes nothing else: `isUploading`,
`uploadProgress` and `uploadedPDFText` keep their values and no read is started. -/
theorem handleFileUpload_rejects_other_types (s : Session) (file : File)
    (h : file.type ≠ "application/pdf") :
    (handleFileUpload s (some file)).messages =
        s.messages ++ [{ text := "Only PDF files are allowed.", isUser := false }] ∧
      (handleFileUpload s (some file)).isUploading = s.isUploading ∧
      (handleFileUpload s (some file)).uploadProgress = s.uploadProgress ∧
      (handleFileUpload s (some file)).uploadedPDFText = s.uploadedPDFText ∧
      (handleFileUpload s (some file)).reads = s.reads ∧
      (handleFileUpload s (some file)).input = s.input ∧
      (handleFileUpload s (some file)).isSending = s.isSending ∧
      (handleFileUpload s (some file)).timers = s.timers := by
  unfold handleFileUpload
  simp [h, invalidTypeMessage]

/-- C1 at `notes.txt`, declared `text/plain`, in a session with a send in flight. -/
theorem handleFileUpload_rejects_other_types_witness :
    notesTxt.type ≠ "application/pdf" ∧
      (handleFileUpload sendingSession (some notesTxt)).messages =
        sendingSession.messages ++
          [{ text := "Only PDF files are allowed.", isUser := false }] ∧
      (handleFileUpload sendingSession (some notesTxt)).reads = sendingSession.reads :=
  have h := handleFileUpload_rejects_other_types sendingSession notesTxt (by decide)
  ⟨by decide, h.1, h.2.2.2.2.1⟩

/-! ## Text extraction: lemmas -/

/-- The accumulator of `String.intercalate` can be split off in front. -/
theorem intercalate_go_append (x y sep : String) (l : List String) :
    String.intercalate.go (x ++ y) sep l = x ++ String.intercalate.go y sep l := by
  induction l generalizing y with
  | nil => simp [String.intercalate.go]
  | cons a l ih =>
    simp only [String.intercalate.go]
    rw [String.append_assoc, String.append_assoc, ← String.append_assoc y sep a]
    exact ih (y ++ sep ++ a)

/-- Appending every page text with a newline after it gives the newline-joined pages
followed by one more newline. -/
theorem foldl_lines (acc p : String) (l : List String) :
    (p :: l).foldl (fun a q => a ++ (q ++ "\n")) acc =
      acc ++ ("\n".intercalate (p :: l) ++ "\n") := by
  induction l generalizing acc p with
  | nil => simp [String.intercalate, String.intercalate.go]
  | cons q l ih =>
    rw [List.foldl_cons, ih]
    simp only [String.intercalate, String.intercalate.go]
    rw [String.append_assoc p "\n" q, intercalate_go_append p, intercalate_go_append "\n" q]
    simp [String.append_assoc]

/-- When the pages `k .. k+n-1` all resolve, the loop returns the accumulator with each
of their texts and a newline appended in page order. -/
theorem extractLoop_eq (pdf : PdfDocument) (content : Nat → TextContent) :
    ∀ (n k : Nat) (acc : String),
      (∀ j, k ≤ j → j < k + n → pdf.getPage j = some ⟨some (content j)⟩) →
      extractLoop pdf n k acc =
        some (((List.range' k n).map (fun j => pageText (content j))).foldl
          (fun a q => a ++ (q ++ "\n")) acc) := by
  intro n
  induction n with
  | zero => intro k acc _; simp [extractLoop]
  | succ n ih =>
    intro k acc h
    have hk := h k (Nat.le_refl k) (by omega)
    simp only [extractLoop, hk, List.range'_succ, List.map_cons, List.foldl_cons]
    exact ih (k + 1) _ (fun j h1 h2 => h j (by omega) (by omega))

/-- When one of the pages `k .. k+n-1` rejects, the loop is left with no text. -/
theorem extractLoop_fails (pdf : PdfDocument) :
    ∀ (n k : Nat) (acc : String),
      (∃ j, k ≤ j ∧ j < k + n ∧ PageFails pdf j) → extractLoop pdf n k acc = none := by
  intro n
  induction n with
  | zero => intro k acc ⟨j, h1, h2, _⟩; omega
  | succ n ih =>
    intro k acc ⟨j, h1, h2, hj⟩
    unfold extractLoop
    cases hp : pdf.getPage k with
    | none => rfl
    | some page =>
      cases hc : page.getTextContent with
      | none => simp only [hc]
      | some content =>
        simp only [hc]
        apply ih
        refine ⟨j, ?_, by omega, hj⟩
        by_contra hlt
        have : j = k := by omega
        subst this
        rcases hj with hj | ⟨page2, hj, hj2⟩
        · rw [hp] at hj; cases hj
        · rw [hp] at hj; cases hj; rw [hc] at hj2; cases hj2

/-- The text extracted from a document all of whose pages resolve. -/
theorem extractText_eq (pdf : PdfDocument) (content : Nat → TextContent)
    (h : ∀ j, 1 ≤ j → j ≤ pdf.numPages → pdf.getPage j = some ⟨some (content j)⟩) :
    extractText (some pdf) =
      some (if pdf.numPages = 0 then ""
        else "\n".intercalate
          ((List.range' 1 pdf.numPages).map (fun j => pageText (content j))) ++ "\n") := by
  show extractLoop pdf pdf.numPages 1 "" = _
  rw [extractLoop_eq pdf content pdf.numPages 1 "" (fun j h1 h2 => h j h1 (by omega))]
  cases hn : pdf.numPages with
  | zero => simp
  | succ n =>
    rw [List.range'_succ, List.map_cons, foldl_lines]
    simp

/-- A failing read yields no text. -/
theorem extractText_fails (pdf : Option PdfDocument) (h : (ReadOutcome.load pdf).Fails) :
    extractText pdf = none := by
  cases pdf with
  | none => rfl
  | some pdf =>
    obtain ⟨j, h1, h2, hj⟩ := h
    exact extractLoop_fails pdf pdf.numPages 1 "" ⟨j, h1, by omega, hj⟩

/-! ## Upload attempts: lemmas -/

/-- Progress events change `uploadProgress` and nothing else. -/
theorem progressAll_eq (s : Session) (events : List (Bool × Nat)) :
    ∃ p, progressAll s events = { s with uploadProgress := p } := by
  induction events generalizing s with
  | nil => exact ⟨s.uploadProgress, rfl⟩
  | cons e events ih =>
    obtain ⟨p, hp⟩ := ih (onprogress s e.1 e.2)
    unfold progressAll at hp ⊢
    rw [List.foldl_cons, hp]
    unfold onprogress
    cases e.1 with
    | false => exact ⟨p, rfl⟩
    | true => exact ⟨p, rfl⟩

/-- The pending read at position `l.length` of `l ++ a :: rest` is `a`. -/
theorem get?_length_append {α : Type} (l : List α) (a : α) (rest : List α) :
    (l ++ a :: rest).get? l.length = some a := by
  induction l with
  | nil => rfl
  | cons b l ih => exact ih

/-- Removing position `l.length` from `l ++ a :: rest` leaves `l ++ rest`. -/
theorem eraseIdx_length_append {α : Type} (l : List α) (a : α) (rest : List α) :
    (l ++ a :: rest).eraseIdx l.length = l ++ rest := by
  induction l with
  | nil => rfl
  | cons b l ih => simpa using ih

/-- The end of the read of `file`, pending after the reads `before`. -/
theorem completeRead_at (s : Session) (before rest : List File) (file : File)
    (outcome : ReadOutcome) (h : s.reads = before ++ file :: rest) :
    completeRead s before.length outcome =
      settle { s with reads := before ++ rest } file outcome := by
  unfold completeRead
  rw [h, get?_length_append, eraseIdx_length_append]

/-- An upload attempt on a PDF file (start, progress events, end of the read) comes
down to the reader's handler run on the session with the upload raised. -/
theorem attempt_eq (s : Session) (file : File) (events : List (Bool × Nat))
    (outcome : ReadOutcome) (hType : file.type = "application/pdf") :
    ∃ p, completeRead (progressAll (handleFileUpload s (some file)) events)
        s.reads.length outcome =
      settle { s with isUploading := true, uploadProgress := p } file outcome := by
  obtain ⟨p, hp⟩ := progressAll_eq (handleFileUpload s (some file)) events
  refine ⟨p, ?_⟩
  rw [hp]
  rw [completeRead_at _ s.reads [] file outcome
    (by simp [handleFileUpload, hType])]
  simp [handleFileUpload, hType]

/-- C3, as stated, fails: for a one-page document whose page has the items `Hello` and
`world`, the stored text is `"Hello world\n"`, with a newline after the last page,
while the join of the page texts with newlines is `"Hello world"`. -/
theorem onload_text_has_trailing_newline :
    (onload initial reportPdf (some onePagePdf)).uploadedPDFText = "Hello world\n" ∧
      "\n".intercalate [" ".intercalate ["Hello", "world"]] = "Hello world" ∧
      (onload initial reportPdf (some onePagePdf)).uploadedPDFText ≠
        "\n".intercalate [" ".intercalate ["Hello", "world"]] := by
  decide

/-- C3, amended: for a document with `N` pages that all resolve, page `j` having the
text items `content j`, the text `reader.onload` stores is every page text (its items
joined with single spaces) followed by a newline, in page order `1..N`: the page texts
joined with newlines plus one trailing newline when `N ≥ 1`, the empty string when
`N = 0`. -/
theorem onload_stores_page_lines (s : Session) (file : File) (pdf : PdfDocument)
    (content : Nat → TextContent)
    (hPages : ∀ j, 1 ≤ j → j ≤ pdf.numPages →
      pdf.getPage j = some { getTextContent := some (content j) }) :
    (onload s file (some pdf)).uploadedPDFText =
      if pdf.numPages = 0 then ""
      else "\n".intercalate ((List.range' 1 pdf.numPages).map (fun j =>
        " ".intercalate ((content j).items.map (fun item => item.str)))) ++ "\n" := by
  unfold onload
  rw [extractText_eq pdf content hPages]
  rfl

/-- C3, amended, at the one-page document. -/
theorem onload_stores_page_lines_witness :
    (onload initial reportPdf (some onePagePdf)).uploadedPDFText = "Hello world\n" :=
  (onload_stores_page_lines initial reportPdf onePagePdf
    (fun _ => { items := [⟨"Hello"⟩, ⟨"world"⟩] })
    (fun j h1 h2 => by
      have hj : j = 1 := Nat.le_antisymm h2 h1
      subst hj
      rfl)).trans (by decide)

/-- C7: an upload of a PDF file that reads and parses (start, progress events, end of
the read) stores exactly the text extracted from the new document, whatever text was
stored before, appends exactly one assistant message naming the file, and leaves
`isUploading = false` and `uploadProgress = 0`. -/
theorem upload_success_replaces_document (s : Session) (file : File)
    (events : List (Bool × Nat)) (pdf : PdfDocument) (content : Nat → TextContent)
    (hType : file.type = "application/pdf")
    (hPages : ∀ j, 1 ≤ j → j ≤ pdf.numPages →
      pdf.getPage j = some { getTextContent := some (content j) }) :
    let done := completeRead (progressAll (handleFileUpload s (some file)) events)
      s.reads.length (ReadOutcome.load (some pdf))
    extractText (some pdf) = some done.uploadedPDFText ∧
      done.messages = s.messages ++
        [{ text := "Successfully uploaded and processed " ++ file.name ++
            ". You can now ask questions related to the document."
           isUser := false }] ∧
      done.isUploading = false ∧
      done.uploadProgress = 0 ∧
      done.reads = s.reads ∧
      done.input = s.input ∧
      done.isSending = s.isSending ∧
      done.timers = s.timers := by
  obtain ⟨p, hp⟩ := attempt_eq s file events (ReadOutcome.load (some pdf)) hType
  simp only [hp, settle, onload, extractText_eq pdf content hPages, successMessage]
  simp

/-- C7 at a session that already holds a document: uploading the one-page
`report.pdf` replaces the old text. -/
theorem upload_success_replaces_document_witness :
    (completeRead (progressAll (handleFileUpload loadedSession (some reportPdf))
        [(true, 40), (false, 0), (true, 100)])
      loadedSession.reads.length (ReadOutcome.load (some onePagePdf))).uploadedPDFText =
        "Hello world\n" ∧
      (completeRead (progressAll (handleFileUpload loadedSession (some reportPdf))
        [(true, 40), (false, 0), (true, 100)])
      loadedSession.reads.length (ReadOutcome.load (some onePagePdf))).isUploading =
        false :=
  have h := upload_success_replaces_document loadedSession reportPdf
    [(true, 40), (false, 0), (true, 100)] onePagePdf
    (fun _ => { items := [⟨"Hello"⟩, ⟨"world"⟩] }) rfl
    (fun j h1 h2 => by
      have hj : j = 1 := Nat.le_antisymm h2 h1
      subst hj
      rfl)
  ⟨Option.some.inj (h.1.symm.trans (by decide)), h.2.2.1⟩

/-- C6: an upload of a PDF file that ends in a failure (the reader reports an error,
the document does not load, or one of its pages cannot be extracted) appends exactly
one assistant failure message, leaves `uploadedPDFText` as it was before the attempt,
and leaves `isUploading = false` and `uploadProgress = 0`. -/
theorem upload_failure_keeps_document (s : Session) (file : File)
    (events : List (Bool × Nat)) (outcome : ReadOutcome)
    (hType : file.type = "application/pdf") (hFail : outcome.Fails) :
    let done := completeRead (progressAll (handleFileUpload s (some file)) events)
      s.reads.length outcome
    (done.messages = s.messages ++
          [{ text := "Failed to read the file. Please try again.", isUser := false }] ∨
        done.messages = s.messages ++
          [{ text := "Failed to process the PDF. Please try another file."
             isUser := false }]) ∧
      done.uploadedPDFText = s.uploadedPDFText ∧
      done.isUploading = false ∧
      done.uploadProgress = 0 ∧
      done.reads = s.reads ∧
      done.input = s.input ∧
      done.isSending = s.isSending ∧
      done.timers = s.timers := by
  obtain ⟨p, hp⟩ := attempt_eq s file events outcome hType
  cases outcome with
  | error => simp [hp, settle, onerror, readFailedMessage]
  | load pdf =>
    simp [hp, settle, onload, extractText_fails pdf hFail, processFailedMessage]

/-- C6 at a session that already holds a document: the second page of the new file
rejects after the first was extracted. -/
theorem upload_failure_keeps_document_witness :
    (ReadOutcome.load (some brokenPdf)).Fails ∧
      (completeRead (progressAll (handleFileUpload loadedSession (some reportPdf))
        [(true, 40)]) loadedSession.reads.length
        (ReadOutcome.load (some brokenPdf))).uploadedPDFText = "old text\n" ∧
      (completeRead (progressAll (handleFileUpload loadedSession (some reportPdf))
        [(true, 40)]) loadedSession.reads.length
        (ReadOutcome.load (some brokenPdf))).uploadProgress = 0 :=
  have hFail : (ReadOutcome.load (some brokenPdf)).Fails :=
    ⟨2, by decide, by decide, Or.inr ⟨{ getTextContent := none }, rfl, rfl⟩⟩
  have h := upload_failure_keeps_document loadedSession reportPdf [(true, 40)]
    (ReadOutcome.load (some brokenPdf)) rfl hFail
  ⟨hFail, h.2.1, h.2.2.2.1⟩

/-- The handler that ends a read appends one assistant message, lowers `isUploading`
and zeroes `uploadProgress`; it touches neither the send state nor the pending lists. -/
theorem settle_effect (s : Session) (file : File) (outcome : ReadOutcome) :
    (∃ m, (settle s file outcome).messages = s.messages ++ [m] ∧ m.isUser = false) ∧
      (settle s file outcome).isUploading = false ∧
      (settle s file outcome).uploadProgress = 0 ∧
      (settle s file outcome).isSending = s.isSending ∧
      (settle s file outcome).timers = s.timers ∧
      (settle s file outcome).reads = s.reads := by
  cases outcome with
  | error => exact ⟨⟨readFailedMessage, rfl, rfl⟩, rfl, rfl, rfl, rfl, rfl⟩
  | load pdf =>
    show (∃ m, (onload s file pdf).messages = s.messages ++ [m] ∧ m.isUser = false) ∧
      (onload s file pdf).isUploading = false ∧
      (onload s file pdf).uploadProgress = 0 ∧
      (onload s file pdf).isSending = s.isSending ∧
      (onload s file pdf).timers = s.timers ∧
      (onload s file pdf).reads = s.reads
    unfold onload
    cases h : extractText pdf with
    | none => exact ⟨⟨processFailedMessage, rfl, rfl⟩, rfl, rfl, rfl, rfl, rfl⟩
    | some text => exact ⟨⟨successMessage file, rfl, rfl⟩, rfl, rfl, rfl, rfl, rfl⟩

/-- C9, as stated, fails: with the read of `report.pdf` at 40 percent, a second PDF
file given to `handleFileUpload` resets `uploadProgress` to 0 and starts a second
read. -/
theorem handleFileUpload_restarts_while_uploading :
    uploadingSession.isUploading = true ∧
      uploadingSession.uploadProgress = 40 ∧
      (handleFileUpload uploadingSession (some invoicePdf)).uploadProgress = 0 ∧
      uploadingSession.reads = [reportPdf] ∧
      (handleFileUpload uploadingSession (some invoicePdf)).reads =
        [reportPdf, invoicePdf] := by
  decide

/-- C9, amended: while `isUploading` is true the upload button is disabled, so an
upload request made with it changes nothing (`isUploading` and `uploadProgress` keep
their values and no read is started); `handleFileUpload` itself has no such guard: a
PDF file given to it keeps `isUploading` true, resets `uploadProgress` to 0 and starts
a further read. -/
theorem second_upload_while_uploading (s : Session) (file : File)
    (hUp : s.isUploading = true) (hType : file.type = "application/pdf") :
    clickUpload s (some file) = s ∧
      handleFileUpload s (some file) =
        { s with isUploading := true, uploadProgress := 0, reads := s.reads ++ [file] } := by
  unfold clickUpload uploadDisabled handleFileUpload
  simp [hUp, hType]

/-- C9, amended, at the session whose read is at 40 percent. -/
theorem second_upload_while_uploading_witness :
    clickUpload uploadingSession (some invoicePdf) = uploadingSession ∧
      handleFileUpload uploadingSession (some invoicePdf) =
        { uploadingSession with
          isUploading := true, uploadProgress := 0, reads := [reportPdf, invoicePdf] } :=
  second_upload_while_uploading uploadingSession invoicePdf rfl rfl

/-- C8, as stated, fails: upload B (`invoice.pdf`) is started while upload A
(`report.pdf`) is still being read; when A's read then ends with a parsed document,
the completion is applied: the document text and the message log change and
`isUploading` drops to false while B's read is still pending. -/
theorem stale_completion_is_applied :
    (handleFileUpload (handleFileUpload loadedSession (some reportPdf))
        (some invoicePdf)).reads = [reportPdf, invoicePdf] ∧
      (handleFileUpload (handleFileUpload loadedSession (some reportPdf))
        (some invoicePdf)).uploadedPDFText = "old text\n" ∧
      (handleFileUpload (handleFileUpload loadedSession (some reportPdf))
        (some invoicePdf)).isUploading = true ∧
      (completeRead (handleFileUpload (handleFileUpload loadedSession (some reportPdf))
        (some invoicePdf)) 0 (ReadOutcome.load (some onePagePdf))).uploadedPDFText =
          "Hello world\n" ∧
      (completeRead (handleFileUpload (handleFileUpload loadedSession (some reportPdf))
        (some invoicePdf)) 0 (ReadOutcome.load (some onePagePdf))).messages =
          loadedSession.messages ++ [successMessage reportPdf] ∧
      (completeRead (handleFileUpload (handleFileUpload loadedSession (some reportPdf))
        (some invoicePdf)) 0 (ReadOutcome.load (some onePagePdf))).isUploading = false ∧
      (completeRead (handleFileUpload (handleFileUpload loadedSession (some reportPdf))
        (some invoicePdf)) 0 (ReadOutcome.load (some onePagePdf))).reads =
          [invoicePdf] := by
  decide

/-- C8, amended: no read is abandoned and no completion is discarded.  From the page a
second upload cannot be started while one is active (the button is disabled); when
upload B is nevertheless started through `handleFileUpload` while upload A is being
read, both reads are pending, and after any progress events A's completion runs A's
handler on the session: one assistant message is appended, `isUploading` is set to
false and `uploadProgress` to 0 although B is pending, A's text is stored when A
parsed and the stored text is kept when A failed.  After any further progress events
B's completion runs B's handler in the same way, so the log holds both outcomes in
completion order. -/
theorem superseded_upload_completes (s : Session) (fileA fileB : File)
    (eventsA eventsB : List (Bool × Nat)) (outcomeA outcomeB : ReadOutcome)
    (hA : fileA.type = "application/pdf") (hB : fileB.type = "application/pdf") :
    let started := handleFileUpload (handleFileUpload s (some fileA)) (some fileB)
    let readingA := progressAll started eventsA
    let afterA := completeRead readingA s.reads.length outcomeA
    let readingB := progressAll afterA eventsB
    let afterB := completeRead readingB s.reads.length outcomeB
    clickUpload (handleFileUpload s (some fileA)) (some fileB) =
        handleFileUpload s (some fileA) ∧
      started.reads = s.reads ++ [fileA, fileB] ∧
      afterA = settle { readingA with reads := s.reads ++ [fileB] } fileA outcomeA ∧
      afterB = settle { readingB with reads := s.reads } fileB outcomeB ∧
      afterA.isUploading = false ∧
      afterA.uploadProgress = 0 ∧
      afterA.reads = s.reads ++ [fileB] ∧
      (∀ pdf text, outcomeA = ReadOutcome.load pdf → extractText pdf = some text →
        afterA.uploadedPDFText = text) ∧
      (outcomeA.Fails → afterA.uploadedPDFText = s.uploadedPDFText) ∧
      afterB.isUploading = false ∧
      afterB.uploadProgress = 0 ∧
      afterB.reads = s.reads ∧
      (∀ pdf text, outcomeB = ReadOutcome.load pdf → extractText pdf = some text →
        afterB.uploadedPDFText = text) ∧
      (outcomeB.Fails → afterB.uploadedPDFText = afterA.uploadedPDFText) ∧
      ∃ mA mB, afterA.messages = s.messages ++ [mA] ∧
        afterB.messages = s.messages ++ [mA, mB] ∧
        mA.isUser = false ∧ mB.isUser = false := by
  intro started readingA afterA readingB afterB
  have hStarted : started =
      { s with isUploading := true, uploadProgress := 0,
               reads := s.reads ++ [fileA, fileB] } := by
    simp [started, handleFileUpload, hA, hB]
  obtain ⟨pA, hpA⟩ := progressAll_eq started eventsA
  have hReadingA : readingA = { started with uploadProgress := pA } := hpA
  have hAfterA : afterA =
      settle { readingA with reads := s.reads ++ [fileB] } fileA outcomeA :=
    completeRead_at readingA s.reads [fileB] fileA outcomeA (by rw [hReadingA, hStarted])
  obtain ⟨⟨mA, hmA, huA⟩, hUpA, hProgA, _, _, hReadsA⟩ :=
    settle_effect { readingA with reads := s.reads ++ [fileB] } fileA outcomeA
  rw [← hAfterA] at hmA hUpA hProgA hReadsA
  obtain ⟨pB, hpB⟩ := progressAll_eq afterA eventsB
  have hReadingB : readingB = { afterA with uploadProgress := pB } := hpB
  have hAfterB : afterB = settle { readingB with reads := s.reads } fileB outcomeB := by
    have h := completeRead_at readingB s.reads [] fileB outcomeB
      (by rw [hReadingB]; exact hReadsA)
    simpa using h
  obtain ⟨⟨mB, hmB, huB⟩, hUpB, hProgB, _, _, hReadsB⟩ :=
    settle_effect { readingB with reads := s.reads } fileB outcomeB
  rw [← hAfterB] at hmB hUpB hProgB hReadsB
  have hMsgsA : readingA.messages = s.messages := by rw [hReadingA, hStarted]
  have hTextA : readingA.uploadedPDFText = s.uploadedPDFText := by
    rw [hReadingA, hStarted]
  have hMsgsB : readingB.messages = afterA.messages := by rw [hReadingB]
  have hTextB : readingB.uploadedPDFText = afterA.uploadedPDFText := by rw [hReadingB]
  refine ⟨?_, by rw [hStarted], hAfterA, hAfterB, hUpA, hProgA, hReadsA, ?_, ?_,
    hUpB, hProgB, hReadsB, ?_, ?_, mA, mB, ?_, ?_, huA, huB⟩
  · simp [clickUpload, uploadDisabled, handleFileUpload, hA]
  · intro pdf text hOut hText
    rw [hAfterA, hOut]
    simp [settle, onload, hText]
  · intro hFail
    rw [hAfterA, ← hTextA]
    cases outcomeA with
    | error => rfl
    | load pdf => simp [settle, onload, extractText_fails pdf hFail]
  · intro pdf text hOut hText
    rw [hAfterB, hOut]
    simp [settle, onload, hText]
  · intro hFail
    rw [hAfterB, ← hTextB]
    cases outcomeB with
    | error => rfl
    | load pdf => simp [settle, onload, extractText_fails pdf hFail]
  · rw [hmA]; exact congrArg (· ++ [mA]) hMsgsA
  · rw [hmB]
    show readingB.messages ++ [mB] = _
    rw [hMsgsB, hmA]
    show readingA.messages ++ [mA] ++ [mB] = _
    rw [hMsgsA]; simp

/-- C8, amended, at a session holding a document: upload A reaches 60 percent and
parses, upload B, started while A was being read, reaches 80 percent and then ends
with a read error. -/
theorem superseded_upload_completes_witness :
    (completeRead (progressAll (handleFileUpload
        (handleFileUpload loadedSession (some reportPdf)) (some invoicePdf))
        [(true, 60)]) loadedSession.reads.length
        (ReadOutcome.load (some onePagePdf))).isUploading = false ∧
      (completeRead (progressAll (handleFileUpload
        (handleFileUpload loadedSession (some reportPdf)) (some invoicePdf))
        [(true, 60)]) loadedSession.reads.length
        (ReadOutcome.load (some onePagePdf))).uploadProgress = 0 ∧
      (completeRead (progressAll (handleFileUpload
        (handleFileUpload loadedSession (some reportPdf)) (some invoicePdf))
        [(true, 60)]) loadedSession.reads.length
        (ReadOutcome.load (some onePagePdf))).reads = loadedSession.reads ++ [invoicePdf] :=
  have h := superseded_upload_completes loadedSession reportPdf invoicePdf
    [(true, 60)] [(true, 80)] (ReadOutcome.load (some onePagePdf)) ReadOutcome.error
    rfl rfl
  ⟨h.2.2.2.2.1, h.2.2.2.2.2.1, h.2.2.2.2.2.2.1⟩

/-! ## Ordering of replies: lemmas -/

/-- The invariant survives a step that keeps the send state and the log. -/
theorem sendInvariant_of_same (s t : Session) (hS : t.isSending = s.isSending)
    (hT : t.timers = s.timers) (hM : t.messages = s.messages) (h : SendInvariant s) :
    SendInvariant t := by
  unfold SendInvariant at h ⊢
  rw [hS, hT, hM]
  exact h

/-- The invariant survives a step that keeps the send state and appends one assistant
message. -/
theorem sendInvariant_of_append (s t : Session) (m : Message) (hm : m.isUser = false)
    (hS : t.isSending = s.isSending) (hT : t.timers = s.timers)
    (hM : t.messages = s.messages ++ [m]) (h : SendInvariant s) : SendInvariant t := by
  unfold SendInvariant at h ⊢
  rw [hS, hT, hM]
  rcases h with h | ⟨hSend, d, pre, post, hTimers, hLog, hPost⟩
  · exact Or.inl h
  · refine Or.inr ⟨hSend, d, pre, post ++ [m], hTimers, ?_, ?_⟩
    · rw [hLog, List.append_assoc]
    · intro x hx
      rcases List.mem_append.mp hx with hx | hx
      · exact hPost x hx
      · rw [List.mem_singleton.mp hx]; exact hm

/-- The function `handleSend` keeps the invariant. -/
theorem sendInvariant_handleSend (s : Session) (h : SendInvariant s) :
    SendInvariant (handleSend s) := by
  unfold handleSend
  split
  · exact h
  · rename_i hGuard
    simp only [Bool.or_eq_true, not_or, Bool.not_eq_true] at hGuard
    rcases h with ⟨_, hTimers⟩ | ⟨hSend, _⟩
    · refine Or.inr ⟨rfl, s.input, s.messages, [], ?_, ?_, ?_⟩
      · simp [hTimers]
      · simp
      · intro m hm; cases hm
    · rw [hSend] at hGuard; cases hGuard.2

/-- The function `handleFileUpload` keeps the invariant. -/
theorem sendInvariant_handleFileUpload (s : Session) (file : Option File)
    (h : SendInvariant s) : SendInvariant (handleFileUpload s file) := by
  unfold handleFileUpload
  cases file with
  | none => exact h
  | some file =>
    simp only
    split
    · exact sendInvariant_of_append s _ invalidTypeMessage rfl rfl rfl rfl h
    · exact sendInvariant_of_same s _ rfl rfl rfl h

/-- A firing reply timer keeps the invariant. -/
theorem sendInvariant_fireTimer (s : Session) (h : SendInvariant s) :
    SendInvariant (fireTimer s) := by
  rcases h with ⟨hSend, hTimers⟩ | ⟨_, d, pre, post, hTimers, _, _⟩
  · unfold fireTimer
    rw [hTimers]
    exact Or.inl ⟨hSend, hTimers⟩
  · unfold fireTimer
    rw [hTimers]
    exact Or.inl ⟨rfl, rfl⟩

/-- The end of a read keeps the invariant. -/
theorem sendInvariant_completeRead (s : Session) (i : Nat) (outcome : ReadOutcome)
    (h : SendInvariant s) : SendInvariant (completeRead s i outcome) := by
  unfold completeRead
  cases s.reads.get? i with
  | none => exact h
  | some file =>
    obtain ⟨⟨m, hm, hu⟩, _, _, hS, hT, _⟩ :=
      settle_effect { s with reads := s.reads.eraseIdx i } file outcome
    exact sendInvariant_of_append s _ m hu hS hT hm h

/-- Every event keeps the invariant. -/
theorem sendInvariant_step (s : Session) (e : Event) (h : SendInvariant s) :
    SendInvariant (step s e) := by
  cases e with
  | changeInput value =>
    show SendInvariant (changeInput s value)
    unfold changeInput
    split
    · exact h
    · exact sendInvariant_of_same s _ rfl rfl rfl h
  | pressEnter =>
    show SendInvariant (pressEnter s)
    unfold pressEnter
    split
    · exact h
    · exact sendInvariant_handleSend s h
  | clickSend =>
    show SendInvariant (clickSend s)
    unfold clickSend
    split
    · exact h
    · exact sendInvariant_handleSend s h
  | clickUpload file =>
    show SendInvariant (clickUpload s file)
    unfold clickUpload
    split
    · exact h
    · exact sendInvariant_handleFileUpload s file h
  | timerFires => exact sendInvariant_fireTimer s h
  | readProgress lengthComputable progress =>
    show SendInvariant (if s.reads = [] then s else onprogress s lengthComputable progress)
    unfold onprogress
    split
    · exact h
    · split
      · exact sendInvariant_of_same s _ rfl rfl rfl h
      · exact h
  | readEnds i outcome => exact sendInvariant_completeRead s i outcome h

/-- Every run of events keeps the invariant. -/
theorem sendInvariant_run (events : List Event) :
    ∀ s, SendInvariant s → SendInvariant (run s events) := by
  induction events with
  | nil => intro s h; exact h
  | cons e events ih => intro s h; exact ih (step s e) (sendInvariant_step s e h)

/-! ## Ordering of replies: theorems -/

/-- C10, as stated, fails: with a document loaded, the message `hi` is sent and, while
its reply is pending, a file that is not a PDF is chosen with the upload button (which
is enabled during a send); the rejection message is appended between the user message
and its reply. -/
theorem rejection_lands_before_reply :
    (run initial sendThenReject).timers = ["hi"] ∧
      (run initial sendThenReject).messages =
        [successMessage reportPdf,
         { text := "hi", isUser := true },
         { text := "Only PDF files are allowed.", isUser := false }] ∧
      (run initial (sendThenReject ++ [Event.timerFires])).messages =
        [successMessage reportPdf,
         { text := "hi", isUser := true },
         { text := "Only PDF files are allowed.", isUser := false },
         { text := "You said: \"hi\"", isUser := false }] := by
  decide

/-- C10, amended: after every sequence of events from the initial session, either no
send is in flight and no reply is pending, or exactly one reply is pending, for a draft
`d` whose user message is in the log followed by assistant messages only, and the reply
to `d` is appended after them when the timer fires.  So the reply follows its user
message and no other user message comes between the two; messages of the upload
handlers may. -/
theorem reply_follows_user_message (events : List Event) :
    let s := run initial events
    (s.isSending = false ∧ s.timers = []) ∨
      (s.isSending = true ∧ ∃ d pre post, s.timers = [d] ∧
        s.messages = pre ++ [{ text := d, isUser := true }] ++ post ∧
        (∀ m ∈ post, m.isUser = false) ∧
        (step s Event.timerFires).messages =
          pre ++ [{ text := d, isUser := true }] ++ post ++
            [{ text := replyText d, isUser := false }] ∧
        (step s Event.timerFires).isSending = false) := by
  intro s
  rcases sendInvariant_run events initial (Or.inl ⟨rfl, rfl⟩) with
    h | ⟨hSend, d, pre, post, hTimers, hLog, hPost⟩
  · exact Or.inl h
  · refine Or.inr ⟨hSend, d, pre, post, hTimers, hLog, hPost, ?_, ?_⟩
    · show (fireTimer s).messages = _
      unfold fireTimer
      rw [show s.timers = [d] from hTimers]
      show s.messages ++ _ = _
      rw [show s.messages = _ from hLog]
    · show (fireTimer s).isSending = false
      unfold fireTimer
      rw [show s.timers = [d] from hTimers]
      rfl

end ChatInterface
